import Mathlib

/-!
# Job Posting Monitor — verification of the monitoring core

A shallow embedding of `app.py`'s "Run Monitoring" logic:

* the visa-evidence scanner (`app.py` lines 267–275): for each keyword the code
  runs `re.findall(r'[^.]*?\b' + re.escape(keyword) + r'\b[^.]*\.', html,
  re.IGNORECASE | re.DOTALL)` and extends one evidence list across keywords;
* the change detection against the old snapshot (lines 277–283);
* the archiver branch (lines 285–314);
* the per-target fetch try/except (lines 254–265);
* the end-of-run snapshot rotation (lines 329–332).

Strings are modelled on their underlying `List Char`; the Python regex engine's
behaviour on this fixed pattern shape is modelled explicitly (leftmost match,
non-greedy `[^.]*?` prefix, word boundaries, greedy `[^.]*` run up to the first
terminating period, scan resuming after each match).
-/

/-- Python's `\w` word-character test, for the ASCII inputs this app handles:
letters, digits, or underscore (used by the `\b` word-boundary assertions). -/
def isWordChar (c : Char) : Bool := c.isAlphanum || c == '_'

/-- Case-insensitive occurrence (Python `re.IGNORECASE`): the keyword's
characters appear verbatim at index `j` of `t`, compared lowercased. -/
def occursAt (kw t : List Char) (j : Nat) : Bool :=
  ((t.drop j).take kw.length).map Char.toLower == kw.map Char.toLower

/-- Occurrence of `kw` at index `j` of `t` satisfying both `\b` word-boundary
assertions of the pattern `\b<kw>\b`: the character before `j` (if any) and the
character after the occurrence (if any) are not word characters. -/
def boundedAt (kw t : List Char) (j : Nat) : Bool :=
  occursAt kw t j &&
  (j == 0 || !isWordChar (t.getD (j - 1) ' ')) &&
  (decide (t.length ≤ j + kw.length) || !isWordChar (t.getD (j + kw.length) ' '))

/-- Index of the first word-bounded keyword occurrence at or after `pos`
(the non-greedy `[^.]*?` prefix makes the engine take the earliest
reachable occurrence). -/
def firstOccFrom (kw t : List Char) (pos : Nat) : Option Nat :=
  (List.range' pos (t.length + 1 - pos)).find? (boundedAt kw t)

/-- Index of the first `'.'` at or after index `m` (the greedy `[^.]*`
followed by `\.` extends each match exactly to this period). -/
def firstPeriodFrom (t : List Char) (m : Nat) : Option Nat :=
  (List.range' m (t.length - m)).find? (fun i => t.getD i ' ' == '.')

/-- Start index of a match whose keyword occurrence sits at `j` when the scan
is at `pos`: the engine advances its attempt position past any `'.'` lying
between `pos` and `j` (the `[^.]*?` prefix cannot cross a period), so the
match begins right after the last period in `[pos, j)`, or at `pos`. -/
def matchStart (t : List Char) (pos j : Nat) : Nat :=
  match ((List.range' pos (j - pos)).filter (fun i => t.getD i ' ' == '.')).getLast? with
  | some i => i + 1
  | none => pos

/-- One `re.findall` scan of `[^.]*?\b<kw>\b[^.]*\.` over `t` starting at
`pos`. Each step finds the first bounded occurrence reachable from `pos`,
extends to the first period after it, emits the matched slice, and resumes
after that period. If the first occurrence has no terminating period then no
later occurrence has one either, so the scan ends. The fuel argument only
bounds the recursion; each step consumes the period at index `k ≥ pos`, so
`t.length + 1` fuel (as supplied by `reFindAll`) is never exhausted. -/
def findAllFuel (kw t : List Char) : Nat → Nat → List (List Char)
  | 0, _ => []
  | fuel + 1, pos =>
    match firstOccFrom kw t pos with
    | none => []
    | some j =>
      match firstPeriodFrom t (j + kw.length) with
      | none => []
      | some k =>
        (t.drop (matchStart t pos j)).take (k + 1 - matchStart t pos j) ::
          findAllFuel kw t fuel (k + 1)

/-- `re.findall(r'[^.]*?\b' + re.escape(kw) + r'\b[^.]*\.', t, IGNORECASE | DOTALL)`. -/
def reFindAll (kw t : List Char) : List (List Char) :=
  findAllFuel kw t (t.length + 1) 0

/-- String-level wrapper for one keyword's `re.findall` call (app.py line 271). -/
def findAllStr (kw text : String) : List String :=
  (reFindAll kw.data text.data).map String.mk

/-- The fixed sponsorship keyword list (app.py line 268). -/
def visaKeywords : List String :=
  ["visa sponsorship", "sponsors visa", "visa support", "work visa",
   "sponsor h1b", "sponsor visa"]

/-- The `for keyword in visa_keywords: visa_evidence.extend(...)` loop
(app.py lines 269–272): matches are accumulated keyword by keyword. -/
def evidenceFor (text : String) : List String → List String
  | [] => []
  | kw :: rest => findAllStr kw text ++ evidenceFor text rest

/-- `visa_evidence` after the keyword loop (app.py line 272). -/
def visaEvidenceList (text : String) : List String :=
  evidenceFor text visaKeywords

/-- `visa_mention = bool(visa_evidence)` (app.py line 273). -/
def visaMention (text : String) : Bool :=
  !(visaEvidenceList text).isEmpty

/-- `visa_status = "Yes" if visa_mention else "No"` (app.py line 274). -/
def visaStatus (text : String) : String :=
  if visaMention text then "Yes" else "No"

/-- The distinct evidence snippets, one representative order for Python's
`set(visa_evidence)` (app.py line 275); the set's iteration order is
unspecified in Python, so only membership and freedom from duplicates of
this list are meaningful. -/
def visaEvidenceUnique (text : String) : List String :=
  (visaEvidenceList text).dedup

/-- `visa_evidence_str = "\n".join(set(visa_evidence))` (app.py line 275). -/
def visaEvidenceStr (text : String) : String :=
  String.intercalate "\n" (visaEvidenceUnique text)

/-- Case-insensitive substring test: some (not necessarily word-bounded)
occurrence of `kw` inside `t`. -/
def containsCI (kw t : List Char) : Bool :=
  (List.range (t.length + 1)).any (occursAt kw t)

/-- The page text mentions at least one sponsorship keyword as a
case-insensitive substring. -/
def textMentionsKeyword (text : String) : Bool :=
  visaKeywords.any (fun kw => containsCI kw.data text.data)

/-! ## The run loop (tab_run, app.py lines 244–332) -/

/-- One monitored target: a row of `targets.xlsx` as used by the run loop. -/
structure Target where
  company : String
  url : String
  role : String
deriving DecidableEq

/-- The externally determined outcome of the run's side effects for one
target: the HTTP fetch (`.ok` body text on a 2xx response, `.error` message
when `requests.get`/`raise_for_status` raises), whether the Zotero
create-item/attach sequence succeeds (yielding the new item key) or raises,
and whether the screenshot API call succeeds. -/
structure Outcome where
  fetch : Except String String
  zoteroKey : Option String
  screenshotOk : Bool

/-- Archiving configuration at the start of a run: the archive checkbox,
whether a Zotero client was constructed (`zot` is not `None`), whether a
screenshot client was constructed, and the Zotero secrets used to build
archive links. -/
structure ArchiveEnv where
  takeArchives : Bool
  zot : Bool
  screenshotClient : Bool
  libraryType : String
  libraryId : String
deriving DecidableEq

/-- One row appended to `results` (app.py lines 261–264 and 316–319). -/
structure ResultRow where
  companyName : String
  url : String
  role : String
  date : String
  status : String
  visaSponsorship : String
  visaEvidence : String
  archive : Option String
deriving DecidableEq

/-- Python's `str.replace` for a single-character pattern and replacement:
every occurrence of `a` becomes `b`. -/
def replaceChar (s : String) (a b : Char) : String :=
  String.mk (s.data.map fun c => if c = a then b else c)

/-- The snapshot filename for a target (app.py line 249):
`f"{company.replace(' ', '_').replace('/', '-')}_{role.replace(' ', '_').replace('/', '-')}.html"`.
Both the latest and the old snapshot of a target live under this key. -/
def targetKey (t : Target) : String :=
  replaceChar (replaceChar t.company ' ' '_') '/' '-' ++ "_" ++
    replaceChar (replaceChar t.role ' ' '_') '/' '-' ++ ".html"

/-- A snapshot directory: file name ↦ file contents. Writing a file prepends
the pair, so `storeFind` returns the most recent write. -/
def storeFind : List (String × String) → String → Option String
  | [], _ => none
  | (k', v) :: rest, k => if k = k' then some v else storeFind rest k

/-- The Zotero link recorded on a successful archive (app.py line 299). -/
def zoteroLink (env : ArchiveEnv) (itemKey : String) : String :=
  "https://www.zotero.org/" ++ env.libraryType ++ "s/" ++ env.libraryId ++
    "/items/" ++ itemKey

/-- The screenshot file path recorded on a successful capture
(app.py lines 307–311). -/
def screenshotFile (date company role : String) : String :=
  "Screenshots/" ++ replaceChar date ':' '-' ++ "_" ++ company ++ "_" ++
    role ++ ".png"

/-- The archiver branch (app.py lines 285–314), returning the archive link
and the suffix appended to the status. It runs only when a change was seen
and archiving is on; then `if zot:` attempts Zotero — a failure only warns
(no fallback) — and `elif screenshot_client:` is reached only when no Zotero
client exists. -/
def archiveStep (env : ArchiveEnv) (o : Outcome) (date company role : String)
    (hasChanged : Bool) : Option String × String :=
  match hasChanged && env.takeArchives with
  | false => (none, "")
  | true =>
    match env.zot, o.zoteroKey, env.screenshotClient, o.screenshotOk with
    | true, some k, _, _ => (some (zoteroLink env k), " (Archived to Zotero)")
    | true, none, _, _ => (none, "")
    | false, _, true, true =>
        (some (screenshotFile date company role), " (Screenshot captured)")
    | false, _, true, false => (none, "")
    | false, _, false, _ => (none, "")

/-- The change detection (app.py lines 277–283): if no old snapshot file
exists under the key the status is a first snapshot (treated as changed);
otherwise the old file's text is compared with the newly written text.
Returns `(has_changed, status)`. -/
def changeCheck (oldStore : List (String × String)) (key html : String) :
    Bool × String :=
  match storeFind oldStore key with
  | none => (true, "First snapshot taken")
  | some old =>
      if html ≠ old then (true, "Change detected! 🚨")
      else (false, "No change")

/-- The result row for one target (app.py lines 254–319). On a fetch error
the except branch records the error row and `continue`s; on success the
fetched text is written to the latest snapshot and read back for comparison,
the visa scan runs on it, and the status is decided by the old snapshot's
existence and contents, with the archiver possibly appending a suffix. -/
def resultRowFor (env : ArchiveEnv) (oldStore : List (String × String))
    (date : String) (t : Target) (o : Outcome) : ResultRow :=
  match o.fetch with
  | .error e =>
      { companyName := t.company, url := t.url, role := t.role, date := date,
        status := "Error: " ++ e, visaSponsorship := "N/A",
        visaEvidence := "", archive := none }
  | .ok html =>
      let changed := changeCheck oldStore (targetKey t) html
      let arch := archiveStep env o date t.company t.role changed.1
      { companyName := t.company, url := t.url, role := t.role, date := date,
        status := changed.2 ++ arch.2, visaSponsorship := visaStatus html,
        visaEvidence := visaEvidenceStr html, archive := arch.1 }

/-- The latest-snapshot directory after one target: a successful fetch writes
the page text under the target's key (app.py lines 258–259); a failed fetch
writes nothing (the except branch `continue`s before the write completes). -/
def latestAfter (latest : List (String × String)) (t : Target) (o : Outcome) :
    List (String × String) :=
  match o.fetch with
  | .error _ => latest
  | .ok html => (targetKey t, html) :: latest

/-- The `for _, row in df_targets.iterrows():` loop (app.py lines 244–319):
produces the result rows in target order and threads the latest-snapshot
directory through the successful fetch writes. -/
def runTargets (env : ArchiveEnv) (oldStore : List (String × String))
    (date : String) (latest : List (String × String)) :
    List (Target × Outcome) → List ResultRow × List (String × String)
  | [] => ([], latest)
  | (t, o) :: rest =>
      let res := runTargets env oldStore date (latestAfter latest t o) rest
      (resultRowFor env oldStore date t o :: res.1, res.2)

/-- A whole run (app.py lines 244–332): the loop starts with an empty latest
directory (the previous run's rotation removed and recreated it), and the
end-of-run rotation (lines 329–332) removes the old directory, copies the
latest directory over it, and empties the latest directory. Returns the
result rows and the old-snapshot directory as it stands after the run. -/
def runMonitor (env : ArchiveEnv) (oldStore : List (String × String))
    (date : String) (ts : List (Target × Outcome)) :
    List ResultRow × List (String × String) :=
  ((runTargets env oldStore date [] ts).1, (runTargets env oldStore date [] ts).2)

/-- Status-prefix test on the underlying characters (`String.startsWith`
computed on `List Char`, where it is provable and evaluable). -/
def strStarts (s p : String) : Bool := p.data.isPrefixOf s.data

/-- A sample archiving configuration with both clients constructed. -/
def envBoth : ArchiveEnv :=
  { takeArchives := true, zot := true, screenshotClient := true,
    libraryType := "user", libraryId := "42" }

/-- A sample archiving configuration with only the screenshot client. -/
def envShot : ArchiveEnv :=
  { takeArchives := true, zot := false, screenshotClient := true,
    libraryType := "user", libraryId := "42" }

/-- A sample target. -/
def tAB : Target := { company := "A", url := "u", role := "B" }

/-- A sample outcome: fetch succeeds, the Zotero attempt raises, the
screenshot call would succeed. -/
def oZotFails : Outcome :=
  { fetch := .ok "new text", zoteroKey := none, screenshotOk := true }

/-- A second sample target with a different key. -/
def tCD : Target := { company := "C", url := "v", role := "D" }

/-- A sample outcome whose fetch succeeds with a fixed page text. -/
def oPage : Outcome :=
  { fetch := .ok "page one.", zoteroKey := none, screenshotOk := true }

/-- A sample outcome whose fetch raises. -/
def oErr : Outcome :=
  { fetch := .error "boom", zoteroKey := none, screenshotOk := true }

/-! ## Helper lemmas -/

/-- A string starts with itself followed by anything. -/
lemma strStarts_append (p q : String) : strStarts (p ++ q) p = true := by
  rw [strStarts, String.data_append, List.isPrefixOf_iff_prefix]
  exact List.prefix_append p.data q.data

/-- Replacing a character of a list with a different one changes the string. -/
lemma mk_set_ne (l : List Char) (i : Nat) (c : Char) (h : i < l.length)
    (hc : c ≠ l.get ⟨i, h⟩) : String.mk (l.set i c) ≠ String.mk l := by
  intro heq
  have hdata : l.set i c = l := congrArg String.data heq
  have h1 : (l.set i c)[i]? = l[i]? := by rw [hdata]
  rw [List.getElem?_set_self, List.getElem?_eq_getElem h] at h1
  · exact hc (by simpa using h1)
  · exact h

/-- The archiver only ever appends one of three suffixes to the status. -/
lemma archive_suffix_cases (env : ArchiveEnv) (o : Outcome) (d c r : String)
    (ch : Bool) :
    (archiveStep env o d c r ch).2 = "" ∨
    (archiveStep env o d c r ch).2 = " (Archived to Zotero)" ∨
    (archiveStep env o d c r ch).2 = " (Screenshot captured)" := by
  cases hb : ch && env.takeArchives <;>
    cases hz : env.zot <;> rcases hk : o.zoteroKey with _ | k <;>
    cases hs : env.screenshotClient <;> cases ho : o.screenshotOk <;>
    simp [archiveStep, hb, hz, hk, hs, ho]

/-- When no change was seen, the archiver does nothing. -/
lemma archiveStep_unchanged (env : ArchiveEnv) (o : Outcome) (d c r : String) :
    archiveStep env o d c r false = (none, "") := by
  simp [archiveStep]

/-- The status of a successful-fetch row is the change status followed by
the archive suffix. -/
lemma row_status (env : ArchiveEnv) (old : List (String × String))
    (date : String) (t : Target) (o : Outcome) (html : String)
    (hf : o.fetch = .ok html) :
    (resultRowFor env old date t o).status
      = (changeCheck old (targetKey t) html).2 ++
        (archiveStep env o date t.company t.role
          (changeCheck old (targetKey t) html).1).2 := by
  simp [resultRowFor, hf]

/-- The archive link of a successful-fetch row comes from the archiver. -/
lemma row_archive (env : ArchiveEnv) (old : List (String × String))
    (date : String) (t : Target) (o : Outcome) (html : String)
    (hf : o.fetch = .ok html) :
    (resultRowFor env old date t o).archive
      = (archiveStep env o date t.company t.role
          (changeCheck old (targetKey t) html).1).1 := by
  simp [resultRowFor, hf]

/-- The three status facts used by the status claims: a first snapshot when
no old file exists, and the outcome of the text comparison otherwise. -/
lemma status_facts (env : ArchiveEnv) (old : List (String × String))
    (date : String) (t : Target) (o : Outcome) (html : String)
    (hf : o.fetch = .ok html) :
    (storeFind old (targetKey t) = none →
        strStarts (resultRowFor env old date t o).status
          "First snapshot taken" = true) ∧
    ∀ oldText, storeFind old (targetKey t) = some oldText →
      strStarts (resultRowFor env old date t o).status
          "First snapshot taken" = false ∧
      (html ≠ oldText →
        strStarts (resultRowFor env old date t o).status
          "Change detected! 🚨" = true) ∧
      (html = oldText → (resultRowFor env old date t o).status = "No change") := by
  constructor
  · intro hnone
    have hcc : changeCheck old (targetKey t) html = (true, "First snapshot taken") := by
      simp [changeCheck, hnone]
    rw [row_status env old date t o html hf, hcc]
    exact strStarts_append _ _
  · intro oldText hsome
    by_cases hne : html = oldText
    · have hcc : changeCheck old (targetKey t) html = (false, "No change") := by
        simp [changeCheck, hsome, hne]
      have hst : (resultRowFor env old date t o).status = "No change" := by
        rw [row_status env old date t o html hf, hcc, archiveStep_unchanged]
        decide
      refine ⟨by rw [hst]; decide, fun hc => (hc hne).elim, fun _ => hst⟩
    · have hcc : changeCheck old (targetKey t) html = (true, "Change detected! 🚨") := by
        simp [changeCheck, hsome, hne]
      rw [row_status env old date t o html hf, hcc]
      rcases archive_suffix_cases env o date t.company t.role true with h | h | h <;>
        rw [h] <;>
        exact ⟨by decide, fun _ => by decide, fun he => (hne he).elim⟩

/-- The rows of a run do not depend on the latest-snapshot directory being
threaded through the loop: each row is the per-target row, in target order. -/
lemma runTargets_rows (env : ArchiveEnv) (old : List (String × String))
    (date : String) :
    ∀ (ts : List (Target × Outcome)) (latest : List (String × String)),
      (runTargets env old date latest ts).1
        = ts.map fun p => resultRowFor env old date p.1 p.2 := by
  intro ts
  induction ts with
  | nil => intro latest; rfl
  | cons p rest ih =>
      intro latest
      obtain ⟨t, o⟩ := p
      simp [runTargets, ih]

/-- If no target of the run successfully writes the key, the latest
directory keeps whatever it held for that key. -/
lemma storeFind_latest_none (env : ArchiveEnv) (old : List (String × String))
    (date : String) (k : String) :
    ∀ (ts : List (Target × Outcome)) (latest : List (String × String)),
      (∀ p ∈ ts, ∀ h, p.2.fetch = .ok h → targetKey p.1 ≠ k) →
      storeFind (runTargets env old date latest ts).2 k = storeFind latest k := by
  intro ts
  induction ts with
  | nil => intro latest _; rfl
  | cons p rest ih =>
      intro latest hw
      obtain ⟨t, o⟩ := p
      have hrest : ∀ q ∈ rest, ∀ h, q.2.fetch = .ok h → targetKey q.1 ≠ k :=
        fun q hq => hw q (List.mem_cons_of_mem _ hq)
      show storeFind (runTargets env old date (latestAfter latest t o) rest).2 k
          = storeFind latest k
      rw [ih _ hrest]
      cases hf : o.fetch with
      | error e => simp [latestAfter, hf]
      | ok h =>
          have hk : targetKey t ≠ k := hw (t, o) (List.mem_cons_self _ _) h hf
          simp only [latestAfter, hf, storeFind]
          rw [if_neg fun hkk => hk hkk.symm]

/-- If every successful write of the key in the run writes the text `x`,
then a key already holding `x` still holds `x` afterwards. -/
lemma storeFind_latest_pres (env : ArchiveEnv) (old : List (String × String))
    (date : String) (k x : String) :
    ∀ (ts : List (Target × Outcome)) (latest : List (String × String)),
      (∀ p ∈ ts, ∀ h, p.2.fetch = .ok h → targetKey p.1 = k → h = x) →
      storeFind latest k = some x →
      storeFind (runTargets env old date latest ts).2 k = some x := by
  intro ts
  induction ts with
  | nil => intro latest _ hl; exact hl
  | cons p rest ih =>
      intro latest hw hl
      obtain ⟨t, o⟩ := p
      have hrest : ∀ q ∈ rest, ∀ h, q.2.fetch = .ok h → targetKey q.1 = k → h = x :=
        fun q hq => hw q (List.mem_cons_of_mem _ hq)
      show storeFind (runTargets env old date (latestAfter latest t o) rest).2 k = some x
      apply ih _ hrest
      cases hf : o.fetch with
      | error e => simpa [latestAfter, hf] using hl
      | ok h =>
          simp only [latestAfter, hf, storeFind]
          by_cases hkk : k = targetKey t
          · rw [if_pos hkk]
            rw [hw (t, o) (List.mem_cons_self _ _) h hf hkk.symm]
          · rw [if_neg hkk]; exact hl

/-- If every successful write of the key writes `x` and at least one target
successfully writes the key, the latest directory ends holding `x` there. -/
lemma storeFind_latest_write (env : ArchiveEnv) (old : List (String × String))
    (date : String) (k x : String) :
    ∀ (ts : List (Target × Outcome)) (latest : List (String × String)),
      (∀ p ∈ ts, ∀ h, p.2.fetch = .ok h → targetKey p.1 = k → h = x) →
      (∃ p ∈ ts, p.2.fetch = .ok x ∧ targetKey p.1 = k) →
      storeFind (runTargets env old date latest ts).2 k = some x := by
  intro ts
  induction ts with
  | nil => intro latest _ hex; exact absurd hex (by simp)
  | cons p rest ih =>
      intro latest hw hex
      obtain ⟨t, o⟩ := p
      have hrest : ∀ q ∈ rest, ∀ h, q.2.fetch = .ok h → targetKey q.1 = k → h = x :=
        fun q hq => hw q (List.mem_cons_of_mem _ hq)
      show storeFind (runTargets env old date (latestAfter latest t o) rest).2 k = some x
      rcases hex with ⟨q, hq, hqf, hqk⟩
      rcases List.mem_cons.mp hq with hhead | htail
      · subst hhead
        apply storeFind_latest_pres env old date k x rest _ hrest
        have hqf' : o.fetch = Except.ok x := hqf
        have hqk' : targetKey t = k := hqk
        simp only [latestAfter, hqf', storeFind]
        rw [if_pos hqk'.symm]
      · exact ih _ hrest ⟨q, htail, hqf, hqk⟩

/-- A case-insensitive occurrence of a nonempty keyword fits inside the text. -/
lemma occursAt_le (kw t : List Char) (j : Nat) (hkw : kw ≠ [])
    (h : occursAt kw t j = true) : j + kw.length ≤ t.length := by
  have heq := eq_of_beq h
  have hlen := congrArg List.length heq
  simp [List.length_take, List.length_drop] at hlen
  have h3 : 0 < kw.length := List.length_pos.mpr hkw
  omega

/-- A word-bounded occurrence is in particular an occurrence. -/
lemma boundedAt_occurs (kw t : List Char) (j : Nat)
    (h : boundedAt kw t j = true) : occursAt kw t j = true := by
  unfold boundedAt at h
  simp only [Bool.and_eq_true] at h
  exact h.1.1

/-- If no index carries a word-bounded occurrence, the scan finds none. -/
lemma firstOccFrom_eq_none (kw t : List Char) (pos : Nat)
    (h : ∀ j, boundedAt kw t j = false) : firstOccFrom kw t pos = none :=
  List.find?_eq_none.mpr fun j _ => by simp [h j]

/-- Without any case-insensitive substring occurrence of a nonempty keyword
there is no word-bounded occurrence either. -/
lemma boundedAt_false_of_not_contains (kw t : List Char) (hkw : kw ≠ [])
    (h : containsCI kw t = false) : ∀ j, boundedAt kw t j = false := by
  intro j
  cases hb : boundedAt kw t j with
  | false => rfl
  | true =>
      exfalso
      have hocc := boundedAt_occurs kw t j hb
      have hle := occursAt_le kw t j hkw hocc
      have h3 : 0 < kw.length := List.length_pos.mpr hkw
      have hmem : j ∈ List.range (t.length + 1) := List.mem_range.mpr (by omega)
      have hall := List.any_eq_false.mp h j hmem
      exact hall hocc

/-- If there is no period at or after `m`, there is none at or after any
later index either. -/
lemma firstPeriod_none_mono (t : List Char) {m m' : Nat} (hm : m ≤ m')
    (h : firstPeriodFrom t m = none) : firstPeriodFrom t m' = none := by
  rw [firstPeriodFrom, List.find?_eq_none] at h ⊢
  intro i hi
  apply h
  have hmem := List.mem_range'_1.mp hi
  exact List.mem_range'_1.mpr ⟨by omega, by omega⟩

/-- A text with no period at all has no period at or after any index. -/
lemma firstPeriodFrom_of_no_period (t : List Char)
    (h : t.all (fun c => !(c == '.')) = true) (m : Nat) :
    firstPeriodFrom t m = none := by
  rw [firstPeriodFrom, List.find?_eq_none]
  intro i hi
  have hmem := List.mem_range'_1.mp hi
  have hilen : i < t.length := by omega
  have hget := List.all_eq_true.mp h (t.get ⟨i, hilen⟩) (t.get_mem _ _)
  have hgd : t.getD i ' ' = t.get ⟨i, hilen⟩ := by
    rw [List.getD_eq_getElem?_getD, List.getElem?_eq_getElem hilen]
    rfl
  simp only [hgd]
  simpa using hget

/-- Without a word-bounded occurrence the regex scan returns no match. -/
lemma reFindAll_eq_nil_of_no_occ (kw t : List Char)
    (h : firstOccFrom kw t 0 = none) : reFindAll kw t = [] := by
  rw [reFindAll, findAllFuel, h]

/-- If no word-bounded occurrence is followed (at or after its start) by a
period, the regex scan returns no match: every match needs a closing `'.'`. -/
lemma reFindAll_eq_nil_of_no_period (kw t : List Char)
    (h : ∀ j, boundedAt kw t j = true → firstPeriodFrom t j = none) :
    reFindAll kw t = [] := by
  cases hocc : firstOccFrom kw t 0 with
  | none => rw [reFindAll, findAllFuel, hocc]
  | some j =>
      have hb : boundedAt kw t j = true := List.find?_some hocc
      have hpn : firstPeriodFrom t (j + kw.length) = none :=
        firstPeriod_none_mono t (Nat.le_add_right j kw.length) (h j hb)
      simp only [reFindAll, findAllFuel, hocc, hpn]

/-- The keyword loop yields nothing when every keyword yields nothing. -/
lemma evidenceFor_eq_nil (text : String) :
    ∀ kws : List String, (∀ kw ∈ kws, findAllStr kw text = []) →
      evidenceFor text kws = [] := by
  intro kws
  induction kws with
  | nil => intro _; rfl
  | cons kw rest ih =>
      intro h
      show findAllStr kw text ++ evidenceFor text rest = []
      rw [h kw (List.mem_cons_self _ _), ih fun q hq => h q (List.mem_cons_of_mem _ hq)]
      rfl

/-- Membership in the accumulated evidence is membership in some keyword's
match list. -/
lemma mem_evidenceFor (s text : String) :
    ∀ kws : List String,
      s ∈ evidenceFor text kws ↔ ∃ kw ∈ kws, s ∈ findAllStr kw text := by
  intro kws
  induction kws with
  | nil => simp [evidenceFor]
  | cons kw rest ih => simp [evidenceFor, ih]

/-- The accumulated evidence is nonempty exactly when some keyword matched. -/
lemma evidenceFor_ne_nil_iff (text : String) :
    ∀ kws : List String,
      evidenceFor text kws ≠ [] ↔ ∃ kw ∈ kws, findAllStr kw text ≠ [] := by
  intro kws
  induction kws with
  | nil => simp [evidenceFor]
  | cons kw rest ih =>
      constructor
      · intro hne
        by_cases hk : findAllStr kw text = []
        · have hr : evidenceFor text rest ≠ [] := by
            intro hr
            apply hne
            show findAllStr kw text ++ evidenceFor text rest = []
            rw [hk, hr]
            rfl
          rcases ih.mp hr with ⟨q, hq, hqne⟩
          exact ⟨q, List.mem_cons_of_mem _ hq, hqne⟩
        · exact ⟨kw, List.mem_cons_self _ _, hk⟩
      · rintro ⟨q, hq, hqne⟩ hnil
        rw [show evidenceFor text (kw :: rest)
            = findAllStr kw text ++ evidenceFor text rest from rfl] at hnil
        have hparts := List.append_eq_nil.mp hnil
        rcases List.mem_cons.mp hq with rfl | hmem
        · exact hqne hparts.1
        · exact (ih.mpr ⟨q, hmem, hqne⟩) hparts.2

/-- The verdict string is "Yes" exactly when the evidence list is nonempty. -/
lemma visaStatus_yes_iff (text : String) :
    visaStatus text = "Yes" ↔ visaEvidenceList text ≠ [] := by
  rw [visaStatus, visaMention]
  cases he : visaEvidenceList text with
  | nil => simp
  | cons a l => simp

/-! ## Claims -/

/-- C1 counterexample: the code performs no negation filtering, so for the
input "We do not offer visa sponsorship." the verdict is "Yes" (the claim
says "no"), while the evidence is exactly that sentence. -/
theorem negated_sentence_still_yields_yes :
    visaStatus "We do not offer visa sponsorship." = "Yes" ∧
    visaStatus "We do not offer visa sponsorship." ≠ "No" ∧
    visaEvidenceList "We do not offer visa sponsorship."
      = ["We do not offer visa sponsorship."] :=
  ⟨by decide, by decide, by decide⟩

/-- C1 (amended): the verdict is "Yes" exactly when some sponsorship
keyword produced a regex match; there is no negation pass, so the negated
example also yields "Yes" with the sentence as evidence. -/
theorem visa_verdict_ignores_negation (text : String) :
    (visaStatus text = "Yes" ↔ ∃ kw ∈ visaKeywords, findAllStr kw text ≠ []) ∧
    visaStatus "We do not offer visa sponsorship." = "Yes" ∧
    "We do not offer visa sponsorship." ∈
      visaEvidenceList "We do not offer visa sponsorship." := by
  refine ⟨?_, by decide, by decide⟩
  rw [visaStatus_yes_iff]
  exact evidenceFor_ne_nil_iff text visaKeywords

/-- C2: for a target of the run whose fetch succeeds, the recorded row is in
the run results, its status begins with "First snapshot taken" exactly when
no old snapshot exists under the key, and otherwise the status reflects the
comparison of the old text with the fetched text. -/
theorem first_snapshot_iff_no_old (env : ArchiveEnv)
    (old : List (String × String)) (date : String)
    (ts : List (Target × Outcome)) (t : Target) (o : Outcome) (html : String)
    (hmem : (t, o) ∈ ts) (hf : o.fetch = .ok html) :
    resultRowFor env old date t o ∈ (runMonitor env old date ts).1 ∧
    (strStarts (resultRowFor env old date t o).status "First snapshot taken" = true
      ↔ storeFind old (targetKey t) = none) ∧
    ∀ oldText, storeFind old (targetKey t) = some oldText →
      (strStarts (resultRowFor env old date t o).status "Change detected! 🚨" = true
        ↔ html ≠ oldText) ∧
      (html = oldText → (resultRowFor env old date t o).status = "No change") := by
  obtain ⟨h1, h2⟩ := status_facts env old date t o html hf
  refine ⟨?_, ⟨?_, h1⟩, ?_⟩
  · rw [show (runMonitor env old date ts).1 = (runTargets env old date [] ts).1 from rfl,
      runTargets_rows]
    exact List.mem_map.mpr ⟨(t, o), hmem, rfl⟩
  · intro hst
    cases hso : storeFind old (targetKey t) with
    | none => rfl
    | some oldText =>
        rw [(h2 oldText hso).1] at hst
        exact absurd hst (by decide)
  · intro oldText hso
    obtain ⟨hfalse, hchange, hnochange⟩ := h2 oldText hso
    refine ⟨⟨?_, hchange⟩, hnochange⟩
    intro hst heq
    rw [hnochange heq] at hst
    exact absurd hst (by decide)

/-- Witness for C2 at a concrete first-snapshot run. -/
theorem first_snapshot_iff_no_old_witness :
    strStarts (resultRowFor envShot [] "d" tAB oPage).status
      "First snapshot taken" = true :=
  ((first_snapshot_iff_no_old envShot [] "d" [(tAB, oPage)] tAB oPage "page one."
      (List.mem_cons_self _ _) rfl).2.1).mpr rfl

/-- C3: with an old snapshot present, the status begins with the change
banner exactly when the fetched text differs from the old text; identical
text yields exactly "No change"; any single-character mutation of the old
text, fetched as the new text, yields the change banner. -/
theorem changed_iff_not_identical (env : ArchiveEnv)
    (old : List (String × String)) (date : String) (t : Target) (o : Outcome)
    (html oldText : String) (hf : o.fetch = .ok html)
    (hso : storeFind old (targetKey t) = some oldText) :
    (strStarts (resultRowFor env old date t o).status "Change detected! 🚨" = true
      ↔ html ≠ oldText) ∧
    (html = oldText → (resultRowFor env old date t o).status = "No change") ∧
    ∀ (i : Nat) (c : Char) (hi : i < oldText.data.length),
      c ≠ oldText.data.get ⟨i, hi⟩ →
      ∀ o' : Outcome, o'.fetch = .ok (String.mk (oldText.data.set i c)) →
        strStarts (resultRowFor env old date t o').status
          "Change detected! 🚨" = true := by
  obtain ⟨h1, h2⟩ := status_facts env old date t o html hf
  obtain ⟨hfalse, hchange, hnochange⟩ := h2 oldText hso
  refine ⟨⟨?_, hchange⟩, hnochange, ?_⟩
  · intro hst heq
    rw [hnochange heq] at hst
    exact absurd hst (by decide)
  · intro i c hi hc o' hf'
    obtain ⟨_, h2'⟩ := status_facts env old date t o'
      (String.mk (oldText.data.set i c)) hf'
    exact (h2' oldText hso).2.1 (mk_set_ne oldText.data i c hi hc)

/-- Witness for C3 at a concrete changed run. -/
theorem changed_iff_not_identical_witness :
    strStarts (resultRowFor envShot [("A_B.html", "old text")] "d" tAB
      oZotFails).status "Change detected! 🚨" = true :=
  ((changed_iff_not_identical envShot [("A_B.html", "old text")] "d" tAB
      oZotFails "new text" "old text" rfl rfl).1).mpr (by decide)

/-- C4: a run records exactly one row per target, in target order; a target
whose fetch raises gets an error row with visa verdict N/A, empty evidence
and no archive link, and every other target (before or after it) still gets
its own row. -/
theorem fetch_error_isolated (env : ArchiveEnv) (old : List (String × String))
    (date : String) (ts : List (Target × Outcome)) :
    (runMonitor env old date ts).1
      = ts.map (fun p => resultRowFor env old date p.1 p.2) ∧
    (runMonitor env old date ts).1.length = ts.length ∧
    ∀ p ∈ ts, ∀ e, p.2.fetch = .error e →
      resultRowFor env old date p.1 p.2 =
        { companyName := p.1.company, url := p.1.url, role := p.1.role,
          date := date, status := "Error: " ++ e, visaSponsorship := "N/A",
          visaEvidence := "", archive := none } := by
  have hrows : (runMonitor env old date ts).1
      = ts.map (fun p => resultRowFor env old date p.1 p.2) :=
    runTargets_rows env old date ts []
  refine ⟨hrows, by rw [hrows, List.length_map], ?_⟩
  intro p _ e hf
  simp [resultRowFor, hf]

/-- Witness for C4: a two-target run whose first fetch raises still records
both rows, the first being the error row. -/
theorem fetch_error_isolated_witness :
    (runMonitor envShot [] "d" [(tAB, oErr), (tCD, oPage)]).1.length = 2 ∧
    resultRowFor envShot [] "d" tAB oErr =
      { companyName := "A", url := "u", role := "B", date := "d",
        status := "Error: boom", visaSponsorship := "N/A",
        visaEvidence := "", archive := none } := by
  constructor
  · exact ((fetch_error_isolated envShot [] "d" [(tAB, oErr), (tCD, oPage)]).2.1).trans rfl
  · exact (fetch_error_isolated envShot [] "d" [(tAB, oErr), (tCD, oPage)]).2.2
      (tAB, oErr) (List.mem_cons_self _ _) "boom" rfl

/-- C5 counterexample: archiving on, change detected, Zotero client present
but its attempt raises, screenshot client present and its call would
succeed — yet the archive link is left null and no screenshot suffix is
added: there is no screenshot fallback after a Zotero failure. -/
theorem zotero_failure_no_screenshot_fallback :
    envBoth.zot = true ∧ envBoth.screenshotClient = true ∧
    envBoth.takeArchives = true ∧ oZotFails.zoteroKey = none ∧
    oZotFails.screenshotOk = true ∧
    (resultRowFor envBoth [("A_B.html", "old text")] "2026-01-01 00:00:00"
      tAB oZotFails).status = "Change detected! 🚨" ∧
    (resultRowFor envBoth [("A_B.html", "old text")] "2026-01-01 00:00:00"
      tAB oZotFails).archive = none :=
  ⟨rfl, rfl, rfl, rfl, rfl, by decide, by decide⟩

/-- C5 (amended): when archiving is on and a change was detected, a
configured Zotero client whose attempt fails leaves the archive link null
and the status bare, with no screenshot fallback; the screenshot capability
is used only when no Zotero client exists. -/
theorem zotero_failure_leaves_archive_null (env : ArchiveEnv)
    (old : List (String × String)) (date : String) (t : Target) (o : Outcome)
    (html oldText : String) (hf : o.fetch = .ok html)
    (hso : storeFind old (targetKey t) = some oldText) (hne : html ≠ oldText)
    (harc : env.takeArchives = true) :
    (env.zot = true → o.zoteroKey = none →
      (resultRowFor env old date t o).archive = none ∧
      (resultRowFor env old date t o).status = "Change detected! 🚨") ∧
    (env.zot = false → env.screenshotClient = true → o.screenshotOk = true →
      (resultRowFor env old date t o).archive
        = some (screenshotFile date t.company t.role) ∧
      (resultRowFor env old date t o).status
        = "Change detected! 🚨 (Screenshot captured)") := by
  have hcc : changeCheck old (targetKey t) html = (true, "Change detected! 🚨") := by
    simp [changeCheck, hso, hne]
  have hcc1 : (changeCheck old (targetKey t) html).1 = true := by rw [hcc]
  have hcc2 : (changeCheck old (targetKey t) html).2 = "Change detected! 🚨" := by
    rw [hcc]
  constructor
  · intro hz hk
    have harch : archiveStep env o date t.company t.role true = (none, "") := by
      simp [archiveStep, harc, hz, hk]
    constructor
    · rw [row_archive env old date t o html hf, hcc1, harch]
    · rw [row_status env old date t o html hf, hcc2, hcc1, harch]
      decide
  · intro hz hs hok
    have harch : archiveStep env o date t.company t.role true
        = (some (screenshotFile date t.company t.role), " (Screenshot captured)") := by
      simp [archiveStep, harc, hz, hs, hok]
    constructor
    · rw [row_archive env old date t o html hf, hcc1, harch]
    · rw [row_status env old date t o html hf, hcc2, hcc1, harch]
      show ("Change detected! 🚨" ++ " (Screenshot captured)" : String) = _
      decide

/-- Witness for C5 (amended) at the concrete failed-Zotero configuration. -/
theorem zotero_failure_leaves_archive_null_witness :
    (resultRowFor envBoth [("A_B.html", "old text")] "d" tAB oZotFails).archive
      = none :=
  ((zotero_failure_leaves_archive_null envBoth [("A_B.html", "old text")] "d"
      tAB oZotFails "new text" "old text" rfl rfl (by decide) rfl).1 rfl rfl).1

/-- C6: the positive example sentence yields verdict "Yes" with itself as
evidence, and any text mentioning no sponsorship keyword (as a
case-insensitive substring) yields verdict "No" with empty evidence. -/
theorem visa_examples_and_absence :
    (visaStatus "We offer visa sponsorship for all roles." = "Yes" ∧
     "We offer visa sponsorship for all roles." ∈
       visaEvidenceList "We offer visa sponsorship for all roles.") ∧
    ∀ text : String, textMentionsKeyword text = false →
      visaStatus text = "No" ∧ visaEvidenceList text = [] := by
  refine ⟨⟨by decide, by decide⟩, ?_⟩
  intro text h
  have hkeys : ∀ kw ∈ visaKeywords, kw.data ≠ [] := by decide
  have hnil : visaEvidenceList text = [] := by
    apply evidenceFor_eq_nil
    intro kw hmem
    have hci : containsCI kw.data text.data = false := by
      have hany := List.any_eq_false.mp h kw hmem
      cases hc : containsCI kw.data text.data with
      | false => rfl
      | true => exact absurd hc hany
    have hnone : reFindAll kw.data text.data = [] :=
      reFindAll_eq_nil_of_no_occ _ _ (firstOccFrom_eq_none _ _ 0
        (boundedAt_false_of_not_contains kw.data text.data (hkeys kw hmem) hci))
    rw [findAllStr, hnone]
    rfl
  refine ⟨?_, hnil⟩
  rw [visaStatus, visaMention, hnil]
  rfl

/-- Witness for C6 on a keyword-free text. -/
theorem visa_examples_and_absence_witness :
    visaStatus "Open positions in engineering." = "No" ∧
    visaEvidenceList "Open positions in engineering." = [] :=
  visa_examples_and_absence.2 "Open positions in engineering." (by decide)

/-- C7: if a key is successfully fetched with the same text in two
consecutive runs (and nothing else writes that key differently), the old
snapshot after run two — the rotated latest directory of run two — equals
the latest snapshot produced by run one, both holding that text. -/
theorem old_after_run2_eq_latest_of_run1 (env1 env2 : ArchiveEnv)
    (old0 : List (String × String)) (date1 date2 : String)
    (ts1 ts2 : List (Target × Outcome)) (k x : String)
    (h1w : ∃ p ∈ ts1, p.2.fetch = .ok x ∧ targetKey p.1 = k)
    (h1u : ∀ p ∈ ts1, ∀ h, p.2.fetch = .ok h → targetKey p.1 = k → h = x)
    (h2w : ∃ p ∈ ts2, p.2.fetch = .ok x ∧ targetKey p.1 = k)
    (h2u : ∀ p ∈ ts2, ∀ h, p.2.fetch = .ok h → targetKey p.1 = k → h = x) :
    storeFind (runMonitor env2 (runMonitor env1 old0 date1 ts1).2 date2 ts2).2 k
      = storeFind (runTargets env1 old0 date1 [] ts1).2 k ∧
    storeFind (runMonitor env2 (runMonitor env1 old0 date1 ts1).2 date2 ts2).2 k
      = some x := by
  have hA : storeFind (runTargets env1 old0 date1 [] ts1).2 k = some x :=
    storeFind_latest_write env1 old0 date1 k x ts1 [] h1u h1w
  have hB : storeFind
      (runTargets env2 (runMonitor env1 old0 date1 ts1).2 date2 [] ts2).2 k
      = some x :=
    storeFind_latest_write env2 _ date2 k x ts2 [] h2u h2w
  exact ⟨hB.trans hA.symm, hB⟩

/-- Witness for C7: two single-target runs fetching the same page text. -/
theorem old_after_run2_eq_latest_of_run1_witness :
    storeFind (runMonitor envShot (runMonitor envShot [] "d1" [(tAB, oPage)]).2
      "d2" [(tAB, oPage)]).2 (targetKey tAB) = some "page one." := by
  have hu : ∀ p ∈ [(tAB, oPage)], ∀ h, p.2.fetch = .ok h →
      targetKey p.1 = targetKey tAB → h = "page one." := by
    intro p hp h hf _
    rcases List.mem_singleton.mp hp with rfl
    exact (Except.ok.inj hf).symm
  exact (old_after_run2_eq_latest_of_run1 envShot envShot [] "d1" "d2"
    [(tAB, oPage)] [(tAB, oPage)] (targetKey tAB) "page one."
    ⟨(tAB, oPage), List.mem_cons_self _ _, rfl, rfl⟩ hu
    ⟨(tAB, oPage), List.mem_cons_self _ _, rfl, rfl⟩ hu).2

/-- C8: the string recorded as visa evidence is built from the deduplicated
snippet list: it has no duplicates, carries exactly the distinct matched
snippets, and each matched snippet appears exactly once (the order of the
underlying Python set being unspecified). -/
theorem evidence_snippets_deduplicated (text : String) :
    (visaEvidenceUnique text).Nodup ∧
    (∀ s, s ∈ visaEvidenceUnique text ↔ s ∈ visaEvidenceList text) ∧
    (∀ s ∈ visaEvidenceList text, (visaEvidenceUnique text).count s = 1) ∧
    visaEvidenceStr text = String.intercalate "\n" (visaEvidenceUnique text) :=
  ⟨List.nodup_dedup _, fun _ => List.mem_dedup, fun _ hs =>
    List.count_eq_one_of_mem (List.nodup_dedup _) (List.mem_dedup.mpr hs), rfl⟩

/-- Witness for C8: a page matching the same sentence twice records it once. -/
theorem evidence_snippets_deduplicated_witness :
    (visaEvidenceUnique "We sponsor visa.We sponsor visa.").count
      "We sponsor visa." = 1 :=
  (evidence_snippets_deduplicated "We sponsor visa.We sponsor visa.").2.2.1
    "We sponsor visa." (by decide)

/-- C9: if a run records a fetch error for a target (and no other target of
that run successfully writes the same key), the end-of-run rotation leaves
no old snapshot under that key — even when one existed before — so a later
successful fetch of any target with that key reports a first snapshot. -/
theorem fetch_error_drops_snapshot (env : ArchiveEnv)
    (old0 : List (String × String)) (date : String)
    (ts : List (Target × Outcome)) (t : Target) (o : Outcome) (e prior : String)
    (hmem : (t, o) ∈ ts) (herr : o.fetch = .error e)
    (hnk : ∀ p ∈ ts, ∀ h, p.2.fetch = .ok h → targetKey p.1 ≠ targetKey t)
    (hprior : storeFind old0 (targetKey t) = some prior) :
    storeFind (runMonitor env old0 date ts).2 (targetKey t) = none ∧
    ∀ (env' : ArchiveEnv) (date' : String) (t' : Target) (o' : Outcome)
      (html : String), targetKey t' = targetKey t → o'.fetch = .ok html →
      strStarts (resultRowFor env' (runMonitor env old0 date ts).2 date' t'
        o').status "First snapshot taken" = true := by
  have hnone : storeFind (runMonitor env old0 date ts).2 (targetKey t) = none :=
    storeFind_latest_none env old0 date (targetKey t) ts [] hnk
  refine ⟨hnone, ?_⟩
  intro env' date' t' o' html hk hf
  obtain ⟨h1, _⟩ :=
    status_facts env' (runMonitor env old0 date ts).2 date' t' o' html hf
  apply h1
  rw [hk]
  exact hnone

/-- Witness for C9: a one-target run whose fetch raises wipes the prior
snapshot, and the next successful run reports a first snapshot. -/
theorem fetch_error_drops_snapshot_witness :
    storeFind (runMonitor envShot [("A_B.html", "prior text")] "d"
      [(tAB, oErr)]).2 (targetKey tAB) = none ∧
    strStarts (resultRowFor envShot
      (runMonitor envShot [("A_B.html", "prior text")] "d" [(tAB, oErr)]).2
      "d2" tAB oPage).status "First snapshot taken" = true := by
  have hnk : ∀ p ∈ [(tAB, oErr)], ∀ h, p.2.fetch = .ok h →
      targetKey p.1 ≠ targetKey tAB := by
    intro p hp h hf
    rcases List.mem_singleton.mp hp with rfl
    exact Except.noConfusion hf
  have h := fetch_error_drops_snapshot envShot [("A_B.html", "prior text")] "d"
    [(tAB, oErr)] tAB oErr "boom" "prior text" (List.mem_cons_self _ _) rfl
    hnk (by decide)
  exact ⟨h.1, h.2 envShot "d2" tAB oPage "page one." rfl rfl⟩

/-- C10: if no word-bounded keyword occurrence in the text is followed — at
or after its start — by a period, although at least one keyword does occur,
then the scanner extracts no evidence and the verdict is "No": every regex
match requires a closing period. -/
theorem keyword_without_period_yields_nothing (text : String)
    (hocc : ∃ kw ∈ visaKeywords, ∃ j, boundedAt kw.data text.data j = true)
    (hnp : ∀ kw ∈ visaKeywords, ∀ j, boundedAt kw.data text.data j = true →
      firstPeriodFrom text.data j = none) :
    visaEvidenceList text = [] ∧ visaStatus text = "No" := by
  have hnil : visaEvidenceList text = [] := by
    apply evidenceFor_eq_nil
    intro kw hmem
    have hnone : reFindAll kw.data text.data = [] :=
      reFindAll_eq_nil_of_no_period kw.data text.data (hnp kw hmem)
    rw [findAllStr, hnone]
    rfl
  refine ⟨hnil, ?_⟩
  rw [visaStatus, visaMention, hnil]
  rfl

/-- Witness for C10: a keyword mention never followed by a period. -/
theorem keyword_without_period_yields_nothing_witness :
    visaEvidenceList "Visa sponsorship available" = [] ∧
    visaStatus "Visa sponsorship available" = "No" := by
  apply keyword_without_period_yields_nothing
  · exact ⟨"visa sponsorship", by decide, 0, by decide⟩
  · intro kw _ j _
    exact firstPeriodFrom_of_no_period _ (by decide) j
